import Mathlib

/-!
Shallow embedding of `src/lib/torrent/storage/agentstorage/torrent_archive.go`
(package `agentstorage` of apolatrix/kraken).

The archive's external collaborators (the `store.FileStore` facade, the
`metainfoclient.Client`, and the `NewTorrent` factory) are modelled as a
record of primitive operations threading a caller-chosen state type and
whose every invocation is recorded in an event trace, so that theorems can
quantify over arbitrary collaborator behaviour and count calls.  A concrete
state-backed instantiation (`statePrims`) implements the store interface the
spec describes, for the claims that need real state transitions.
-/

namespace Kraken

/-- Serialized metadata bytes are modelled as a list of byte values. -/
abbrev Bytes := List Nat

/-- The `Info` dictionary of `core.MetaInfo`: the content-derived name and the
declared byte length (`mi.Info.Name`, `mi.Info.Length`).  Further structural
fields of the real bencoded dictionary are opaque to this core and omitted. -/
structure InfoDict where
  name : String
  length : Nat
  deriving DecidableEq, Repr

/-- `core.MetaInfo`: immutable descriptor of a content item. -/
structure MetaInfo where
  info : InfoDict
  deriving DecidableEq, Repr

/-- `mi.Name()` returns the name recorded in the info dictionary. -/
def MetaInfo.name (mi : MetaInfo) : String := mi.info.name

/-- Modelled from the spec: `core.MetaInfo.Serialize` lives in the `core`
package, which is not under `src/`.  The spec requires only a byte encoding
whose round trip preserves name and declared length; we fix a concrete
executable encoding: the name's character count, then its characters, then
the declared length.  The source's error return on serialization is never
exercised for a well-formed `MetaInfo`, so the model is total. -/
def serializeMetaInfo (mi : MetaInfo) : Bytes :=
  mi.info.name.length :: (mi.info.name.data.map Char.toNat ++ [mi.info.length])

/-- Modelled from the spec: `core.DeserializeMetaInfo` (package `core`, not
under `src/`).  Partial inverse of `serializeMetaInfo`; malformed bytes
yield `none`. -/
def deserializeMetaInfo (b : Bytes) : Option MetaInfo :=
  match b with
  | [] => none
  | n :: rest =>
    match rest.drop n with
    | [len] => some ⟨⟨String.mk ((rest.take n).map Char.ofNat), len⟩⟩
    | _ => none

/-- Error values observable from the archive.  Identity-carrying sentinel
errors (`os.ErrNotExist`, `metainfoclient.ErrNotFound`, `storage.ErrNotFound`)
are constructors; `fmt.Errorf("ctx: %s", err)` wrapping, which destroys
identity in Go (`%s`, not `%w`), is the `wrapped` constructor. -/
inductive Err where
  | notExist : Err
  | metainfoNotFound : Err
  | storageNotFound : Err
  | other : String → Err
  | wrapped : String → Err → Err
  deriving DecidableEq, Repr

/-- `os.IsNotExist`: true only on the not-exist sentinel; a `wrapped` error
never satisfies it (Go's `%s` wrapping loses the errors.Is chain). -/
def Err.isNotExist : Err → Bool
  | .notExist => true
  | _ => false

/-- Stand-in for the message of the underlying decode error when stored bytes
fail to deserialize. -/
def malformedErr : Err := Err.other "malformed metainfo"

/-- The torrent handle built by `NewTorrent(fs, mi)`; per the spec its
construction is a pure function of the storage facade and the `MetaInfo`,
so the model records the metainfo it was built from. -/
structure Torrent where
  mi : MetaInfo
  deriving DecidableEq, Repr

/-- Piece-status bitfield (one flag per piece). -/
abbrev Bitfield := List Bool

/-- Modelled from the spec: `newBitfieldFromPieceStatusBytes` lives in
`torrent.go` of the same package, which is not under `src/`.  Its call site
in `Stat` has no error return, so the decoder is total: each status byte is
mapped to a done/not-done flag (the exact byte interpretation is opaque). -/
def newBitfieldFromPieceStatusBytes (_name : String) (raw : Bytes) : Bitfield :=
  raw.map (fun v => v == 1)

/-- `storage.TorrentInfo`: read-only pairing of a MetaInfo with a bitfield. -/
structure TorrentInfo where
  mi : MetaInfo
  bitfield : Bitfield
  deriving DecidableEq, Repr

/-- `agentstorage.Config`: retry count and inter-attempt sleep for metainfo
downloads.  The sleep duration is an abstract count of time units. -/
structure Config where
  unavailableMetaInfoRetries : Nat
  unavailableMetaInfoRetrySleep : Nat
  deriving DecidableEq, Repr

/-- Default retry count (the spec fixes only that it is positive). -/
def defaultRetries : Nat := 3

/-- Default retry sleep (the spec fixes only that it is non-zero). -/
def defaultRetrySleep : Nat := 1

/-- Modelled from the spec: `Config.applyDefaults` lives in the package's
`config.go`, which is not under `src/`.  Defaults are applied when a field is
unset — in Go an unset field is its zero value — so a zero retry count or
sleep becomes the positive documented default, and the fetch path never
degenerates to zero attempts. -/
def Config.applyDefaults (c : Config) : Config :=
  { unavailableMetaInfoRetries :=
      if c.unavailableMetaInfoRetries = 0 then defaultRetries
      else c.unavailableMetaInfoRetries,
    unavailableMetaInfoRetrySleep :=
      if c.unavailableMetaInfoRetrySleep = 0 then defaultRetrySleep
      else c.unavailableMetaInfoRetrySleep }

/-- One observable external interaction of the archive. -/
inductive Event where
  | downloadCall (namespace_ name : String) : Event
  | sleep (duration : Nat) : Event
  | getTorrentMetaCall (name : String) : Event
  | getPieceStatusCall (name : String) : Event
  | ensureFile (name : String) (length : Nat) : Event
  | getOrSetCall (name : String) (b : Bytes) : Event
  | deleteFileCall (name : String) : Event
  | newTorrentCall : Event
  deriving DecidableEq, Repr

/-- The external collaborators consumed by the archive, as primitive
operations threading a state of type `σ`:
`downloadOrCache.GetMetadata(name, TorrentMeta)`,
`downloadOrCache.GetMetadata(name, PieceStatus)`,
`metaInfoClient.Download(namespace, name)`,
`fs.EnsureDownloadOrCacheFilePresent(name, length)`,
`downloadOrCache.GetOrSetMetadata(name, TorrentMeta, bytes)`,
`NewTorrent(fs, mi)`, and `fs.DeleteDownloadOrCacheFile(name)`. -/
structure Prims (σ : Type) where
  getTorrentMeta : String → σ → Except Err Bytes × σ
  getPieceStatus : String → σ → Except Err Bytes × σ
  download : String → String → σ → Except Err MetaInfo × σ
  ensureFilePresent : String → Nat → σ → Except Err Unit × σ
  getOrSetTorrentMeta : String → Bytes → σ → Except Err Bytes × σ
  newTorrent : MetaInfo → σ → Except Err Torrent × σ
  deleteFile : String → σ → Except Err Unit × σ

/-- The body of `downloadMetaInfo`'s retry loop
(`for i := 0; i < retries; i++`), with `rem` the remaining iterations and
`lastErr` the named return `err` carried across iterations.  Before every
iteration with `i > 0` the loop sleeps the configured delay; a download
error equal to `metainfoclient.ErrNotFound` converts immediately to
`storage.ErrNotFound`; any other error is retained and retried; success
returns the metainfo; falling off the loop wraps the last error as
`fmt.Errorf("download metainfo: %s", err)`. -/
def downloadLoop {σ : Type} (cfg : Config) (p : Prims σ) (ns name : String) :
    Nat → Nat → Option Err → σ → Except Err MetaInfo × σ × List Event
  | _, 0, lastErr, s =>
    (.error (.wrapped "download metainfo" (lastErr.getD (.other "<nil>"))), s, [])
  | i, rem + 1, _, s =>
    let sleepEv : List Event :=
      if 0 < i then [Event.sleep cfg.unavailableMetaInfoRetrySleep] else []
    let dl := p.download ns name s
    let ev : List Event := sleepEv ++ [Event.downloadCall ns name]
    match dl.1 with
    | .ok mi => (.ok mi, dl.2, ev)
    | .error e =>
      if e = Err.metainfoNotFound then
        (.error .storageNotFound, dl.2, ev)
      else
        let r := downloadLoop cfg p ns name (i + 1) rem (some e) dl.2
        (r.1, r.2.1, ev ++ r.2.2)

/-- `(*TorrentArchive).downloadMetaInfo`: run the retry loop from iteration 0
with up to `cfg.unavailableMetaInfoRetries` attempts and no prior error. -/
def downloadMetaInfo {σ : Type} (cfg : Config) (p : Prims σ) (ns name : String)
    (s : σ) : Except Err MetaInfo × σ × List Event :=
  downloadLoop cfg p ns name 0 cfg.unavailableMetaInfoRetries none s

/-- The shared tail of `CreateTorrent` and `GetTorrent`: deserialize the
metainfo bytes in hand (`fmt.Errorf("parse metainfo: %s", err)` on failure),
then build the torrent (`fmt.Errorf("initialize torrent: %s", err)` on
failure). -/
def finishTorrent {σ : Type} (p : Prims σ) (miRaw : Bytes) (s : σ)
    (tr : List Event) : Except Err Torrent × σ × List Event :=
  match deserializeMetaInfo miRaw with
  | none => (.error (.wrapped "parse metainfo" malformedErr), s, tr)
  | some mi =>
    let nt := p.newTorrent mi s
    match nt.1 with
    | .error e => (.error (.wrapped "initialize torrent" e), nt.2, tr ++ [Event.newTorrentCall])
    | .ok t => (.ok t, nt.2, tr ++ [Event.newTorrentCall])

/-- `(*TorrentArchive).CreateTorrent`: read the metainfo slot; on
`os.IsNotExist`, download the metainfo, ensure the backing file is present
with the fetched name and declared length, serialize and `GetOrSetMetadata`
the bytes, and continue with the committed bytes the store returned; on any
other read error wrap it as `"get metainfo"`; then deserialize and build the
torrent. -/
def CreateTorrent {σ : Type} (cfg : Config) (p : Prims σ) (ns name : String)
    (s : σ) : Except Err Torrent × σ × List Event :=
  let g := p.getTorrentMeta name s
  let ev0 : List Event := [Event.getTorrentMetaCall name]
  match g.1 with
  | .error e =>
    if e.isNotExist then
      let d := downloadMetaInfo cfg p ns name g.2
      match d.1 with
      | .error e1 => (.error e1, d.2.1, ev0 ++ d.2.2)
      | .ok mi =>
        let en := p.ensureFilePresent mi.name mi.info.length d.2.1
        let ev2 : List Event := [Event.ensureFile mi.name mi.info.length]
        match en.1 with
        | .error e2 =>
          (.error (.wrapped "ensure download/cache file present" e2), en.2,
           ev0 ++ d.2.2 ++ ev2)
        | .ok _ =>
          let miRaw := serializeMetaInfo mi
          let go := p.getOrSetTorrentMeta name miRaw en.2
          let ev3 : List Event := [Event.getOrSetCall name miRaw]
          match go.1 with
          | .error e3 =>
            (.error (.wrapped "get or set metainfo" e3), go.2,
             ev0 ++ d.2.2 ++ ev2 ++ ev3)
          | .ok committed =>
            finishTorrent p committed go.2 (ev0 ++ d.2.2 ++ ev2 ++ ev3)
    else
      (.error (.wrapped "get metainfo" e), g.2, ev0)
  | .ok miRaw => finishTorrent p miRaw g.2 ev0

/-- `(*TorrentArchive).GetTorrent`: read the metainfo slot, wrapping any read
error as `"get metainfo"`, then deserialize and build the torrent.  The
namespace is accepted but unused. -/
def GetTorrent {σ : Type} (p : Prims σ) (_ns name : String) (s : σ) :
    Except Err Torrent × σ × List Event :=
  let g := p.getTorrentMeta name s
  let ev0 : List Event := [Event.getTorrentMetaCall name]
  match g.1 with
  | .error e => (.error (.wrapped "get metainfo" e), g.2, ev0)
  | .ok miRaw => finishTorrent p miRaw g.2 ev0

/-- `(*TorrentArchive).Stat`: read the metainfo slot (errors returned
verbatim), deserialize it (`fmt.Errorf("deserialize metainfo: %s", err)` on
failure), read the piece-status slot (errors returned verbatim), and decode
the bitfield.  The namespace is accepted but unused. -/
def Stat {σ : Type} (p : Prims σ) (_ns name : String) (s : σ) :
    Except Err TorrentInfo × σ × List Event :=
  let g := p.getTorrentMeta name s
  let ev0 : List Event := [Event.getTorrentMetaCall name]
  match g.1 with
  | .error e => (.error e, g.2, ev0)
  | .ok raw =>
    match deserializeMetaInfo raw with
    | none => (.error (.wrapped "deserialize metainfo" malformedErr), g.2, ev0)
    | some mi =>
      let ps := p.getPieceStatus name g.2
      let ev1 : List Event := [Event.getPieceStatusCall name]
      match ps.1 with
      | .error e => (.error e, ps.2, ev0 ++ ev1)
      | .ok praw =>
        (.ok ⟨mi, newBitfieldFromPieceStatusBytes name praw⟩, ps.2, ev0 ++ ev1)

/-- `(*TorrentArchive).DeleteTorrent`: delete the backing file; an error
satisfying `os.IsNotExist` is treated as success, any other error
propagates. -/
def DeleteTorrent {σ : Type} (p : Prims σ) (name : String) (s : σ) :
    Except Err Unit × σ × List Event :=
  let d := p.deleteFile name s
  let ev : List Event := [Event.deleteFileCall name]
  match d.1 with
  | .error e => if e.isNotExist then (.ok (), d.2, ev) else (.error e, d.2, ev)
  | .ok _ => (.ok (), d.2, ev)

/-- A store state for the state-backed instantiation: the torrent-metadata
slot and piece-status slot per name in the unified download-or-cache view,
and the allocated length of the backing file per name. -/
structure StoreState where
  torrentMeta : String → Option Bytes
  pieceStatus : String → Option Bytes
  fileLength : String → Option Nat

/-- Modelled from the spec: the external MetadataStore / FileStore facade and
remote client, implemented over `StoreState` exactly as the spec's interface
section describes — `read` returns NotExist on an absent slot; `getOrCreate`
inserts only if absent and always returns the bytes now in effect;
`ensureFilePresent` allocates the given length only if the file is absent
(idempotent); `deleteFile` reports NotExist distinctly on an absent file.
The remote source's behaviour is the parameter `remote`, and torrent
construction is a pure function of the metainfo. -/
def statePrims (remote : String → String → Except Err MetaInfo) :
    Prims StoreState where
  getTorrentMeta name s :=
    ((s.torrentMeta name).elim (.error .notExist) Except.ok, s)
  getPieceStatus name s :=
    ((s.pieceStatus name).elim (.error .notExist) Except.ok, s)
  download ns name s := (remote ns name, s)
  ensureFilePresent name len s :=
    match s.fileLength name with
    | some _ => (.ok (), s)
    | none =>
      (.ok (), { s with fileLength := fun n => if n = name then some len else s.fileLength n })
  getOrSetTorrentMeta name b s :=
    match s.torrentMeta name with
    | some existing => (.ok existing, s)
    | none =>
      (.ok b, { s with torrentMeta := fun n => if n = name then some b else s.torrentMeta n })
  newTorrent mi s := (.ok ⟨mi⟩, s)
  deleteFile name s :=
    match s.fileLength name with
    | some _ =>
      (.ok (), { s with fileLength := fun n => if n = name then none else s.fileLength n })
    | none => (.error .notExist, s)

/-- A collaborator record whose remote source answers the `n`-th download
call with `f n` (the state is the count of download calls made so far);
every other primitive is inert.  Used to observe the retry loop. -/
def seqPrims (f : Nat → Except Err MetaInfo) : Prims Nat where
  getTorrentMeta _ s := (.error (.other "unused"), s)
  getPieceStatus _ s := (.error (.other "unused"), s)
  download _ _ s := (f s, s + 1)
  ensureFilePresent _ _ s := (.ok (), s)
  getOrSetTorrentMeta _ b s := (.ok b, s)
  newTorrent mi s := (.ok ⟨mi⟩, s)
  deleteFile _ s := (.ok (), s)

/-- Number of remote download calls recorded in a trace. -/
def countDownloads : List Event → Nat
  | [] => 0
  | Event.downloadCall _ _ :: t => countDownloads t + 1
  | _ :: t => countDownloads t

/-- Number of sleeps recorded in a trace. -/
def countSleeps : List Event → Nat
  | [] => 0
  | Event.sleep _ :: t => countSleeps t + 1
  | _ :: t => countSleeps t

/-- Number of file-allocation (`EnsureDownloadOrCacheFilePresent`) calls
recorded in a trace. -/
def countEnsures : List Event → Nat
  | [] => 0
  | Event.ensureFile _ _ :: t => countEnsures t + 1
  | _ :: t => countEnsures t

/-- Number of metadata-slot writes (`GetOrSetMetadata`) recorded in a trace. -/
def countGetOrSets : List Event → Nat
  | [] => 0
  | Event.getOrSetCall _ _ :: t => countGetOrSets t + 1
  | _ :: t => countGetOrSets t

/-- Number of file deletions recorded in a trace. -/
def countDeletes : List Event → Nat
  | [] => 0
  | Event.deleteFileCall _ :: t => countDeletes t + 1
  | _ :: t => countDeletes t

/-- The trace of `k` consecutive failed retry iterations after the first
attempt: each sleeps the delay `d` and then calls the remote source. -/
def failTraceAux (ns name : String) (d : Nat) : Nat → List Event
  | 0 => []
  | k + 1 => Event.sleep d :: Event.downloadCall ns name :: failTraceAux ns name d k

/-- The trace of a run of the retry loop in which all of the `k` attempts
fail transiently: a first attempt with no preceding sleep, then `k - 1`
sleep-then-attempt iterations. -/
def failTrace (ns name : String) (d : Nat) : Nat → List Event
  | 0 => []
  | k + 1 => Event.downloadCall ns name :: failTraceAux ns name d k

theorem countDownloads_append (a b : List Event) :
    countDownloads (a ++ b) = countDownloads a + countDownloads b := by
  induction a with
  | nil => simp [countDownloads]
  | cons e t ih => cases e <;> (simp [countDownloads, ih]; try omega)

theorem countDownloads_failTraceAux (ns name : String) (d k : Nat) :
    countDownloads (failTraceAux ns name d k) = k := by
  induction k with
  | zero => rfl
  | succ k ih => simp [failTraceAux, countDownloads, ih]

theorem countDownloads_failTrace (ns name : String) (d k : Nat) :
    countDownloads (failTrace ns name d k) = k := by
  cases k with
  | zero => rfl
  | succ k => simp [failTrace, countDownloads, countDownloads_failTraceAux]

theorem countSleeps_failTraceAux (ns name : String) (d k : Nat) :
    countSleeps (failTraceAux ns name d k) = k := by
  induction k with
  | zero => rfl
  | succ k ih => simp [failTraceAux, countSleeps, ih]

theorem countSleeps_failTrace (ns name : String) (d k : Nat) :
    countSleeps (failTrace ns name d k) = k - 1 := by
  cases k with
  | zero => rfl
  | succ k => simp [failTrace, countSleeps, countSleeps_failTraceAux]

/-- Round trip of the metainfo encoding: deserializing the serialization
recovers the metainfo. -/
theorem deserialize_serialize (mi : MetaInfo) :
    deserializeMetaInfo (serializeMetaInfo mi) = some mi := by
  have hlen : (mi.info.name.data.map Char.toNat).length = mi.info.name.length := by
    rw [List.length_map]; rfl
  have hd : List.drop mi.info.name.length
      (mi.info.name.data.map Char.toNat ++ [mi.info.length]) = [mi.info.length] := by
    rw [← hlen, List.drop_left]
  have ht : List.take mi.info.name.length
      (mi.info.name.data.map Char.toNat ++ [mi.info.length]) =
      mi.info.name.data.map Char.toNat := by
    rw [← hlen, List.take_left]
  simp only [serializeMetaInfo, deserializeMetaInfo, hd, ht]
  simp [List.map_map, Function.comp_def, Char.ofNat_toNat]

theorem downloadLoop_zero {σ : Type} (cfg : Config) (p : Prims σ)
    (ns name : String) (i : Nat) (le : Option Err) (s : σ) :
    downloadLoop cfg p ns name i 0 le s =
      (.error (.wrapped "download metainfo" (le.getD (.other "<nil>"))), s, []) := rfl

theorem downloadLoop_succ {σ : Type} (cfg : Config) (p : Prims σ)
    (ns name : String) (i rem : Nat) (le : Option Err) (s : σ) :
    downloadLoop cfg p ns name i (rem + 1) le s =
      (let sleepEv : List Event :=
        if 0 < i then [Event.sleep cfg.unavailableMetaInfoRetrySleep] else []
      let dl := p.download ns name s
      let ev : List Event := sleepEv ++ [Event.downloadCall ns name]
      match dl.1 with
      | .ok mi => (.ok mi, dl.2, ev)
      | .error e =>
        if e = Err.metainfoNotFound then
          (.error .storageNotFound, dl.2, ev)
        else
          let r := downloadLoop cfg p ns name (i + 1) rem (some e) dl.2
          (r.1, r.2.1, ev ++ r.2.2)) := rfl

theorem seqPrims_download (f : Nat → Except Err MetaInfo) (ns name : String)
    (s : Nat) : (seqPrims f).download ns name s = (f s, s + 1) := rfl

theorem downloadLoop_allFail_aux (cfg : Config) (ns name : String)
    (f : Nat → Except Err MetaInfo) (E : Nat → Err)
    (hf : ∀ j, f j = Except.error (E j)) (hE : ∀ j, E j ≠ Err.metainfoNotFound) :
    ∀ rem i le, 1 ≤ rem → 1 ≤ i →
    downloadLoop cfg (seqPrims f) ns name i rem le i =
      (Except.error (Err.wrapped "download metainfo" (E (i + rem - 1))), i + rem,
       failTraceAux ns name cfg.unavailableMetaInfoRetrySleep rem) := by
  intro rem
  induction rem with
  | zero => intro i le h1 _; exact absurd h1 (by omega)
  | succ r ih =>
    intro i le _ hi
    have hpos : 0 < i := hi
    cases r with
    | zero =>
      rw [downloadLoop_succ]
      simp only [seqPrims_download, hf i, if_pos hpos, if_neg (hE i), downloadLoop_zero]
      simp [failTraceAux]
    | succ r2 =>
      have step := ih (i + 1) (some (E i)) (by omega) (by omega)
      have e1 : i + 1 + (r2 + 1) - 1 = i + (r2 + 1 + 1) - 1 := by omega
      have e2 : i + 1 + (r2 + 1) = i + (r2 + 1 + 1) := by omega
      rw [e1, e2] at step
      rw [downloadLoop_succ]
      simp only [seqPrims_download, hf i, if_pos hpos, if_neg (hE i)]
      rw [step]
      simp [failTraceAux]

/-- Claim C2: with retry count `K ≥ 1` and a remote source whose every call
fails with a transient (non-NotFound) error, `downloadMetaInfo` makes exactly
`K` download attempts, sleeping the configured delay before every attempt
except the first, and returns the exhaustion error wrapping the last
underlying error. -/
theorem downloadMetaInfo_retry_bound (K d : Nat) (ns name : String)
    (f : Nat → Except Err MetaInfo) (E : Nat → Err) (hK : 1 ≤ K)
    (hf : ∀ j, f j = Except.error (E j)) (hE : ∀ j, E j ≠ Err.metainfoNotFound) :
    downloadMetaInfo ⟨K, d⟩ (seqPrims f) ns name 0 =
      (Except.error (Err.wrapped "download metainfo" (E (K - 1))), K,
       failTrace ns name d K)
    ∧ countDownloads (failTrace ns name d K) = K
    ∧ countSleeps (failTrace ns name d K) = K - 1 := by
  refine ⟨?_, countDownloads_failTrace ns name d K, countSleeps_failTrace ns name d K⟩
  unfold downloadMetaInfo
  cases K with
  | zero => exact absurd hK (by omega)
  | succ k =>
    cases k with
    | zero =>
      rw [downloadLoop_succ]
      simp only [seqPrims_download, hf 0, if_neg (hE 0), downloadLoop_zero]
      simp [failTrace, failTraceAux]
    | succ k2 =>
      have step := downloadLoop_allFail_aux ⟨k2 + 1 + 1, d⟩ ns name f E hf hE
        (k2 + 1) 1 (some (E 0)) (by omega) (by omega)
      rw [downloadLoop_succ]
      simp only [seqPrims_download, hf 0, if_neg (hE 0)]
      rw [step]
      simp [failTrace, failTraceAux]
      omega

/-- Witness for C2 at a concrete always-failing source with `K = 2`. -/
theorem downloadMetaInfo_retry_bound_witness :
    downloadMetaInfo ⟨2, 5⟩ (seqPrims fun _ => Except.error (Err.other "boom"))
        "ns" "blob" 0 =
      (Except.error (Err.wrapped "download metainfo" (Err.other "boom")), 2,
       failTrace "ns" "blob" 5 2)
    ∧ countDownloads (failTrace "ns" "blob" 5 2) = 2
    ∧ countSleeps (failTrace "ns" "blob" 5 2) = 2 - 1 :=
  downloadMetaInfo_retry_bound 2 5 "ns" "blob" (fun _ => Except.error (Err.other "boom"))
    (fun _ => Err.other "boom") (by omega) (fun _ => rfl)
    (fun _ => by show Err.other "boom" ≠ Err.metainfoNotFound; decide)

/-- Claim C3: after defaults are applied — which a `TorrentArchive` always
does at construction, turning a zero configured retry count into the
positive default — the retry loop makes at least one download attempt, and
the very first recorded event is a download attempt, not a sleep. -/
theorem downloadMetaInfo_min_one_attempt {σ : Type} (cfg : Config) (p : Prims σ)
    (ns name : String) (s : σ) :
    1 ≤ (cfg.applyDefaults).unavailableMetaInfoRetries
    ∧ (downloadMetaInfo (cfg.applyDefaults) p ns name s).2.2.head? =
        some (Event.downloadCall ns name)
    ∧ 1 ≤ countDownloads (downloadMetaInfo (cfg.applyDefaults) p ns name s).2.2 := by
  have hK : 1 ≤ (cfg.applyDefaults).unavailableMetaInfoRetries := by
    unfold Config.applyDefaults defaultRetries
    dsimp only
    split <;> omega
  refine ⟨hK, ?_⟩
  unfold downloadMetaInfo
  rcases hr : (cfg.applyDefaults).unavailableMetaInfoRetries with _ | k
  · rw [hr] at hK
    exact absurd hK (by decide)
  · rw [downloadLoop_succ]
    rcases hdl : (p.download ns name s).1 with e | mi
    · by_cases hnf : e = Err.metainfoNotFound
      · simp [hdl, hnf, countDownloads]
      · simp [hdl, if_neg hnf, countDownloads_append, countDownloads]
    · simp [hdl, countDownloads]

/-- Claim C4: if the remote source reports the definitive not-found signal on
the first attempt (and at least one attempt is configured), the loop makes
exactly one attempt, incurs no sleep, and the result is the NotFound error. -/
theorem downloadMetaInfo_notfound_short_circuit {σ : Type} (cfg : Config)
    (p : Prims σ) (ns name : String) (s : σ)
    (hK : 1 ≤ cfg.unavailableMetaInfoRetries)
    (h : (p.download ns name s).1 = Except.error Err.metainfoNotFound) :
    downloadMetaInfo cfg p ns name s =
      (Except.error Err.storageNotFound, (p.download ns name s).2,
       [Event.downloadCall ns name])
    ∧ countDownloads [Event.downloadCall ns name] = 1
    ∧ countSleeps [Event.downloadCall ns name] = 0 := by
  refine ⟨?_, rfl, rfl⟩
  unfold downloadMetaInfo
  rcases hr : cfg.unavailableMetaInfoRetries with _ | k
  · rw [hr] at hK
    exact absurd hK (by decide)
  · rw [downloadLoop_succ]
    simp [h]

/-- Witness for C4 at a concrete source answering NotFound immediately. -/
theorem downloadMetaInfo_notfound_short_circuit_witness :
    downloadMetaInfo ⟨2, 7⟩ (seqPrims fun _ => Except.error Err.metainfoNotFound)
        "ns" "blob" 0 =
      (Except.error Err.storageNotFound, 1, [Event.downloadCall "ns" "blob"])
    ∧ countDownloads [Event.downloadCall "ns" "blob"] = 1
    ∧ countSleeps [Event.downloadCall "ns" "blob"] = 0 :=
  downloadMetaInfo_notfound_short_circuit ⟨2, 7⟩
    (seqPrims fun _ => Except.error Err.metainfoNotFound) "ns" "blob" 0
    (by decide) rfl

theorem countEnsures_append (a b : List Event) :
    countEnsures (a ++ b) = countEnsures a + countEnsures b := by
  induction a with
  | nil => simp [countEnsures]
  | cons e t ih => cases e <;> (simp [countEnsures, ih]; try omega)

theorem countGetOrSets_append (a b : List Event) :
    countGetOrSets (a ++ b) = countGetOrSets a + countGetOrSets b := by
  induction a with
  | nil => simp [countGetOrSets]
  | cons e t ih => cases e <;> (simp [countGetOrSets, ih]; try omega)

theorem downloadLoop_pure_writes {σ : Type} (cfg : Config) (p : Prims σ)
    (ns name : String) : ∀ (rem i : Nat) (le : Option Err) (s : σ),
    countEnsures (downloadLoop cfg p ns name i rem le s).2.2 = 0 ∧
    countGetOrSets (downloadLoop cfg p ns name i rem le s).2.2 = 0 := by
  intro rem
  induction rem with
  | zero =>
    intro i le s
    rw [downloadLoop_zero]
    exact ⟨rfl, rfl⟩
  | succ r ih =>
    intro i le s
    rw [downloadLoop_succ]
    by_cases hi : 0 < i <;>
      rcases hdl : (p.download ns name s).1 with e | mi
    · by_cases hnf : e = Err.metainfoNotFound
      · simp [hdl, hnf, hi, countEnsures, countGetOrSets]
      · have := ih (i + 1) (some e) (p.download ns name s).2
        simp [hdl, hnf, hi, countEnsures, countGetOrSets, countEnsures_append,
          countGetOrSets_append, this.1, this.2]
    · simp [hdl, hi, countEnsures, countGetOrSets]
    · by_cases hnf : e = Err.metainfoNotFound
      · simp [hdl, hnf, hi, countEnsures, countGetOrSets]
      · have := ih (i + 1) (some e) (p.download ns name s).2
        simp [hdl, hnf, hi, countEnsures, countGetOrSets, countEnsures_append,
          countGetOrSets_append, this.1, this.2]
    · simp [hdl, hi, countEnsures, countGetOrSets]

theorem downloadLoop_error_shape {σ : Type} (cfg : Config) (p : Prims σ)
    (ns name : String) : ∀ (rem i : Nat) (le : Option Err) (s : σ) (e : Err),
    (downloadLoop cfg p ns name i rem le s).1 = Except.error e →
    e = Err.storageNotFound ∨ ∃ c e2, e = Err.wrapped c e2 := by
  intro rem
  induction rem with
  | zero =>
    intro i le s e h
    rw [downloadLoop_zero] at h
    simp only [Except.error.injEq] at h
    exact Or.inr ⟨_, _, h.symm⟩
  | succ r ih =>
    intro i le s e h
    rw [downloadLoop_succ] at h
    rcases hdl : (p.download ns name s).1 with e1 | mi
    · by_cases hnf : e1 = Err.metainfoNotFound
      · subst hnf
        simp [hdl] at h
        first
        | exact Or.inl h
        | exact Or.inl h.symm
      · simp only [hdl, if_neg hnf] at h
        exact ih (i + 1) (some e1) (p.download ns name s).2 e h
    · simp [hdl] at h

theorem finishTorrent_error_shape {σ : Type} (p : Prims σ) (b : Bytes) (s : σ)
    (tr : List Event) (e : Err) (h : (finishTorrent p b s tr).1 = Except.error e) :
    ∃ c e2, e = Err.wrapped c e2 := by
  unfold finishTorrent at h
  rcases hdes : deserializeMetaInfo b with _ | mi
  · simp only [hdes, Except.error.injEq] at h
    exact ⟨_, _, h.symm⟩
  · simp only [hdes] at h
    rcases hnt : (p.newTorrent mi s).1 with e1 | t
    · simp only [hnt, Except.error.injEq] at h
      exact ⟨_, _, h.symm⟩
    · simp [hnt] at h

/-- A collaborator record over a download-call counter whose primitives
answer from fixed oracles; used to instantiate theorems at concrete inputs. -/
def oraclePrims (meta piece : Except Err Bytes) (f : Nat → Except Err MetaInfo)
    (ens : Except Err Unit) (gos : Bytes → Except Err Bytes)
    (nt : MetaInfo → Except Err Torrent) (del : Except Err Unit) : Prims Nat where
  getTorrentMeta _ s := (meta, s)
  getPieceStatus _ s := (piece, s)
  download _ _ s := (f s, s + 1)
  ensureFilePresent _ _ s := (ens, s)
  getOrSetTorrentMeta _ b s := (gos b, s)
  newTorrent mi s := (nt mi, s)
  deleteFile _ s := (del, s)

theorem createTorrent_missPath {σ : Type} (cfg : Config) (p : Prims σ)
    (ns name : String) (s s0 s1 s2 s3 : σ) (mi : MetaInfo) (tr1 : List Event)
    (committed : Bytes)
    (hmiss : p.getTorrentMeta name s = (Except.error Err.notExist, s0))
    (hdl : downloadMetaInfo cfg p ns name s0 = (Except.ok mi, s1, tr1))
    (hens : p.ensureFilePresent mi.name mi.info.length s1 = (Except.ok (), s2))
    (hgos : p.getOrSetTorrentMeta name (serializeMetaInfo mi) s2 =
      (Except.ok committed, s3)) :
    CreateTorrent cfg p ns name s =
      finishTorrent p committed s3
        ([Event.getTorrentMetaCall name] ++ tr1 ++
         [Event.ensureFile mi.name mi.info.length] ++
         [Event.getOrSetCall name (serializeMetaInfo mi)]) := by
  simp only [CreateTorrent, hmiss, Err.isNotExist, if_true, hdl, hens, hgos]

theorem createTorrent_miss_trace {σ : Type} (cfg : Config) (p : Prims σ)
    (ns name : String) (s s0 s1 s2 : σ) (mi : MetaInfo) (tr1 : List Event)
    (hmiss : p.getTorrentMeta name s = (Except.error Err.notExist, s0))
    (hdl : downloadMetaInfo cfg p ns name s0 = (Except.ok mi, s1, tr1))
    (hens : p.ensureFilePresent mi.name mi.info.length s1 = (Except.ok (), s2)) :
    ∃ tl, (CreateTorrent cfg p ns name s).2.2 =
      ([Event.getTorrentMetaCall name] ++ tr1) ++
        Event.ensureFile mi.name mi.info.length ::
        Event.getOrSetCall name (serializeMetaInfo mi) :: tl := by
  simp only [CreateTorrent, hmiss, Err.isNotExist, if_true, hdl, hens]
  rcases hgos : (p.getOrSetTorrentMeta name (serializeMetaInfo mi) s2).1 with e3 | committed
  · exact ⟨[], by simp [hgos]⟩
  · simp only [hgos]
    unfold finishTorrent
    rcases hdes : deserializeMetaInfo committed with _ | mi2
    · exact ⟨[], by simp [hdes]⟩
    · simp only [hdes]
      rcases hnt : (p.newTorrent mi2
          (p.getOrSetTorrentMeta name (serializeMetaInfo mi) s2).2).1 with e4 | t
      · exact ⟨[Event.newTorrentCall], by simp [hnt]⟩
      · exact ⟨[Event.newTorrentCall], by simp [hnt]⟩

theorem downloadMetaInfo_pure_writes {σ : Type} (cfg : Config) (p : Prims σ)
    (ns name : String) (s : σ) :
    countEnsures (downloadMetaInfo cfg p ns name s).2.2 = 0 ∧
    countGetOrSets (downloadMetaInfo cfg p ns name s).2.2 = 0 :=
  downloadLoop_pure_writes cfg p ns name cfg.unavailableMetaInfoRetries 0 none s

/-- Claim C1: when the miss path's remote fetch and commit both succeed, the
continuation of `CreateTorrent` is a function of the bytes the get-or-set
operation returned (the committed bytes), not of the bytes the caller
serialized: the metainfo handed to the torrent factory is decoded from
`committed`, whatever its relation to `serializeMetaInfo mi`, so all callers
that observe the same committed bytes resolve to the same decoded
metainfo. -/
theorem createTorrent_uses_committed_bytes {σ : Type} (cfg : Config) (p : Prims σ)
    (ns name : String) (s s0 s1 s2 s3 : σ) (mi : MetaInfo) (tr1 : List Event)
    (committed : Bytes)
    (hmiss : p.getTorrentMeta name s = (Except.error Err.notExist, s0))
    (hdl : downloadMetaInfo cfg p ns name s0 = (Except.ok mi, s1, tr1))
    (hens : p.ensureFilePresent mi.name mi.info.length s1 = (Except.ok (), s2))
    (hgos : p.getOrSetTorrentMeta name (serializeMetaInfo mi) s2 =
      (Except.ok committed, s3)) :
    CreateTorrent cfg p ns name s =
      finishTorrent p committed s3
        ([Event.getTorrentMetaCall name] ++ tr1 ++
         [Event.ensureFile mi.name mi.info.length] ++
         [Event.getOrSetCall name (serializeMetaInfo mi)])
    ∧ (∀ mi2, deserializeMetaInfo committed = some mi2 →
        (CreateTorrent cfg p ns name s).1 =
          match (p.newTorrent mi2 s3).1 with
          | Except.ok t => Except.ok t
          | Except.error e => Except.error (Err.wrapped "initialize torrent" e))
    ∧ (deserializeMetaInfo committed = none →
        (CreateTorrent cfg p ns name s).1 =
          Except.error (Err.wrapped "parse metainfo" malformedErr)) := by
  have h1 := createTorrent_missPath cfg p ns name s s0 s1 s2 s3 mi tr1 committed
    hmiss hdl hens hgos
  refine ⟨h1, ?_, ?_⟩
  · intro mi2 hmi2
    rw [h1]
    unfold finishTorrent
    rw [hmi2]
    rcases hnt : (p.newTorrent mi2 s3).1 with e | t <;> simp [hnt]
  · intro hnone
    rw [h1]
    unfold finishTorrent
    rw [hnone]

/-- Concrete collaborators for the C1 witness: the metainfo slot is absent,
the remote fetch succeeds, and the get-or-set operation commits bytes
different from the ones the caller attempted to write. -/
def c1Prims : Prims Nat :=
  oraclePrims (Except.error Err.notExist) (Except.error Err.notExist)
    (fun _ => Except.ok ⟨⟨"a", 4⟩⟩) (Except.ok ()) (fun _ => Except.ok [99])
    (fun mi => Except.ok ⟨mi⟩) (Except.ok ())

/-- Witness for C1: the resolver continues with the store's bytes `[99]`,
not the caller's serialization. -/
theorem createTorrent_uses_committed_bytes_witness :
    CreateTorrent ⟨1, 0⟩ c1Prims "ns" "blob" 0 =
      finishTorrent c1Prims [99] 1
        ([Event.getTorrentMetaCall "blob"] ++ [Event.downloadCall "ns" "blob"] ++
         [Event.ensureFile (MetaInfo.name ⟨⟨"a", 4⟩⟩) 4] ++
         [Event.getOrSetCall "blob" (serializeMetaInfo ⟨⟨"a", 4⟩⟩)]) :=
  (createTorrent_uses_committed_bytes ⟨1, 0⟩ c1Prims "ns" "blob" 0 0 1 1 1
    ⟨⟨"a", 4⟩⟩ [Event.downloadCall "ns" "blob"] [99] rfl rfl rfl rfl).1

/-- Claim C5: when the fetch stage reports NotFound, `CreateTorrent` returns
the NotFound sentinel verbatim; every other failure it returns is wrapped in
stage-identifying context, and the sentinel is never a wrapped error, so
callers can branch on its identity. -/
theorem createTorrent_notfound_verbatim :
    (∀ (σ : Type) (cfg : Config) (p : Prims σ) (ns name : String) (s s0 : σ),
      p.getTorrentMeta name s = (Except.error Err.notExist, s0) →
      (downloadMetaInfo cfg p ns name s0).1 = Except.error Err.storageNotFound →
      (CreateTorrent cfg p ns name s).1 = Except.error Err.storageNotFound)
    ∧ (∀ (σ : Type) (cfg : Config) (p : Prims σ) (ns name : String) (s : σ) (e : Err),
      (CreateTorrent cfg p ns name s).1 = Except.error e →
      e = Err.storageNotFound ∨ ∃ c e2, e = Err.wrapped c e2)
    ∧ (∀ c e2, Err.storageNotFound ≠ Err.wrapped c e2) := by
  refine ⟨?_, ?_, fun c e2 h => Err.noConfusion h⟩
  · intro σ cfg p ns name s s0 hmiss hnf
    simp only [CreateTorrent, hmiss, Err.isNotExist, if_true]
    rcases hd : downloadMetaInfo cfg p ns name s0 with ⟨rd, s1, tr1⟩
    rw [hd] at hnf
    simp only at hnf
    subst hnf
    simp [hd]
  · intro σ cfg p ns name s e h
    simp only [CreateTorrent] at h
    rcases hg : (p.getTorrentMeta name s).1 with e0 | b
    · simp only [hg] at h
      by_cases hne : e0.isNotExist = true
      · simp only [hne, if_true] at h
        rcases hd : downloadMetaInfo cfg p ns name (p.getTorrentMeta name s).2 with ⟨rd, sd, trd⟩
        rw [hd] at h
        rcases rd with e1 | mi
        · simp only at h
          have he : e = e1 := by
            have := h
            simp at this
            exact this.symm
          subst he
          have hshape : (downloadLoop cfg p ns name 0 cfg.unavailableMetaInfoRetries
              none (p.getTorrentMeta name s).2).1 = Except.error e := by
            have hd2 : (downloadMetaInfo cfg p ns name (p.getTorrentMeta name s).2).1 =
                Except.error e := by rw [hd]
            exact hd2
          exact downloadLoop_error_shape cfg p ns name _ _ _ _ _ hshape
        · simp only at h
          rcases hen : (p.ensureFilePresent mi.name mi.info.length sd).1 with e2 | u
          · rw [hen] at h
            simp at h
            exact Or.inr ⟨_, _, h.symm⟩
          · rw [hen] at h
            simp only at h
            rcases hgo : (p.getOrSetTorrentMeta name (serializeMetaInfo mi)
                (p.ensureFilePresent mi.name mi.info.length sd).2).1 with e3 | committed
            · rw [hgo] at h
              simp at h
              exact Or.inr ⟨_, _, h.symm⟩
            · rw [hgo] at h
              exact Or.inr (finishTorrent_error_shape p committed _ _ e h)
      · simp only [hne, if_false] at h
        simp at h
        exact Or.inr ⟨_, _, h.symm⟩
    · simp only [hg] at h
      exact Or.inr (finishTorrent_error_shape p b _ _ e h)

/-- Concrete collaborators for the C5 witness: absent slot and a remote
source that reports NotFound on the first attempt. -/
def c5Prims : Prims Nat :=
  oraclePrims (Except.error Err.notExist) (Except.error Err.notExist)
    (fun _ => Except.error Err.metainfoNotFound) (Except.ok ())
    (fun b => Except.ok b) (fun mi => Except.ok ⟨mi⟩) (Except.ok ())

/-- Witness for C5 at a concrete NotFound run. -/
theorem createTorrent_notfound_verbatim_witness :
    (CreateTorrent ⟨1, 0⟩ c5Prims "ns" "blob" 0).1 =
      Except.error Err.storageNotFound :=
  createTorrent_notfound_verbatim.1 Nat ⟨1, 0⟩ c5Prims "ns" "blob" 0 0 rfl rfl

/-- Claim C9: on the miss path the backing file is ensured present with
exactly the fetched metainfo's declared length, and this call precedes the
metadata commit (the fetch stage itself performs no allocation and no
metadata write); consequently, in the state-backed store, a creation that
starts with the slot and file absent completes with the file's allocated
length equal to the committed metainfo's declared length. -/
theorem createTorrent_allocates_fetched_length_before_commit :
    (∀ (σ : Type) (cfg : Config) (p : Prims σ) (ns name : String) (s s0 s1 s2 : σ)
       (mi : MetaInfo) (tr1 : List Event),
      p.getTorrentMeta name s = (Except.error Err.notExist, s0) →
      downloadMetaInfo cfg p ns name s0 = (Except.ok mi, s1, tr1) →
      p.ensureFilePresent mi.name mi.info.length s1 = (Except.ok (), s2) →
      countEnsures tr1 = 0 ∧ countGetOrSets tr1 = 0 ∧
      ∃ tl, (CreateTorrent cfg p ns name s).2.2 =
        ([Event.getTorrentMetaCall name] ++ tr1) ++
          Event.ensureFile mi.name mi.info.length ::
          Event.getOrSetCall name (serializeMetaInfo mi) :: tl)
    ∧ (∀ (remote : String → String → Except Err MetaInfo) (cfg : Config)
       (ns name : String) (s : StoreState) (mi : MetaInfo),
      1 ≤ cfg.unavailableMetaInfoRetries →
      s.torrentMeta name = none →
      s.fileLength mi.name = none →
      remote ns name = Except.ok mi →
      (CreateTorrent cfg (statePrims remote) ns name s).1 = Except.ok ⟨mi⟩ ∧
      (CreateTorrent cfg (statePrims remote) ns name s).2.1.fileLength mi.name =
        some mi.info.length ∧
      (CreateTorrent cfg (statePrims remote) ns name s).2.1.torrentMeta name =
        some (serializeMetaInfo mi) ∧
      deserializeMetaInfo (serializeMetaInfo mi) = some mi) := by
  constructor
  · intro σ cfg p ns name s s0 s1 s2 mi tr1 hmiss hdl hens
    have hpure := downloadMetaInfo_pure_writes cfg p ns name s0
    rw [hdl] at hpure
    simp only at hpure
    exact ⟨hpure.1, hpure.2,
      createTorrent_miss_trace cfg p ns name s s0 s1 s2 mi tr1 hmiss hdl hens⟩
  · intro remote cfg ns name s mi hK hTM hFL hrem
    have hmiss : (statePrims remote).getTorrentMeta name s =
        (Except.error Err.notExist, s) := by
      simp [statePrims, hTM]
    have hdl : downloadMetaInfo cfg (statePrims remote) ns name s =
        (Except.ok mi, s, [Event.downloadCall ns name]) := by
      unfold downloadMetaInfo
      rcases hr : cfg.unavailableMetaInfoRetries with _ | k
      · rw [hr] at hK
        exact absurd hK (by decide)
      · rw [downloadLoop_succ]
        simp [statePrims, hrem]
    have hens : (statePrims remote).ensureFilePresent mi.name mi.info.length s =
        (Except.ok (), { s with fileLength :=
          fun n => if n = mi.name then some mi.info.length else s.fileLength n }) := by
      simp [statePrims, hFL]
    have hgos : (statePrims remote).getOrSetTorrentMeta name (serializeMetaInfo mi)
        ({ s with fileLength :=
          fun n => if n = mi.name then some mi.info.length else s.fileLength n }) =
        (Except.ok (serializeMetaInfo mi),
         { torrentMeta := fun n => if n = name then some (serializeMetaInfo mi)
             else s.torrentMeta n,
           pieceStatus := s.pieceStatus,
           fileLength := fun n => if n = mi.name then some mi.info.length
             else s.fileLength n }) := by
      simp [statePrims, hTM]
    have hc := createTorrent_missPath cfg (statePrims remote) ns name s s s
      ({ s with fileLength :=
        fun n => if n = mi.name then some mi.info.length else s.fileLength n })
      ({ torrentMeta := fun n => if n = name then some (serializeMetaInfo mi)
           else s.torrentMeta n,
         pieceStatus := s.pieceStatus,
         fileLength := fun n => if n = mi.name then some mi.info.length
           else s.fileLength n })
      mi [Event.downloadCall ns name] (serializeMetaInfo mi) hmiss hdl hens hgos
    rw [hc]
    unfold finishTorrent
    rw [deserialize_serialize]
    refine ⟨rfl, ?_, ?_, rfl⟩
    · simp [statePrims]
    · simp [statePrims]

/-- Remote source for the C9 witness: returns a fixed metainfo. -/
def c9Remote : String → String → Except Err MetaInfo :=
  fun _ _ => Except.ok ⟨⟨"a", 4⟩⟩

/-- Empty store state for the C9 witness. -/
def emptyStore : StoreState :=
  ⟨fun _ => none, fun _ => none, fun _ => none⟩

/-- Witness for C9: creating from an empty store allocates the file at the
fetched declared length and commits metainfo declaring that same length. -/
theorem createTorrent_allocates_fetched_length_witness :
    (CreateTorrent ⟨1, 0⟩ (statePrims c9Remote) "ns" "blob" emptyStore).1 =
      Except.ok ⟨⟨⟨"a", 4⟩⟩⟩ ∧
    (CreateTorrent ⟨1, 0⟩ (statePrims c9Remote) "ns" "blob"
      emptyStore).2.1.fileLength (MetaInfo.name ⟨⟨"a", 4⟩⟩) = some 4 ∧
    (CreateTorrent ⟨1, 0⟩ (statePrims c9Remote) "ns" "blob"
      emptyStore).2.1.torrentMeta "blob" = some (serializeMetaInfo ⟨⟨"a", 4⟩⟩) ∧
    deserializeMetaInfo (serializeMetaInfo ⟨⟨"a", 4⟩⟩) = some ⟨⟨"a", 4⟩⟩ :=
  createTorrent_allocates_fetched_length_before_commit.2 c9Remote ⟨1, 0⟩
    "ns" "blob" emptyStore ⟨⟨"a", 4⟩⟩ (by decide) rfl rfl rfl

theorem getTorrent_no_remote {σ : Type} (p : Prims σ) (ns name : String) (s : σ) :
    countDownloads (GetTorrent p ns name s).2.2 = 0 ∧
    countEnsures (GetTorrent p ns name s).2.2 = 0 ∧
    countGetOrSets (GetTorrent p ns name s).2.2 = 0 := by
  unfold GetTorrent
  rcases hg : (p.getTorrentMeta name s).1 with e | b
  · simp [hg, countDownloads, countEnsures, countGetOrSets]
  · simp only [hg]
    unfold finishTorrent
    rcases hdes : deserializeMetaInfo b with _ | mi
    · simp [hdes, countDownloads, countEnsures, countGetOrSets]
    · simp only [hdes]
      rcases hnt : (p.newTorrent mi (p.getTorrentMeta name s).2).1 with e | t <;>
        simp [hnt, countDownloads, countEnsures, countGetOrSets]

/-- Claim C6: `GetTorrent` never calls the remote source (its trace holds no
download events for any collaborators whatsoever), and on a name whose
metainfo slot is absent it fails with the NotExist error, surfaced in the
read-stage wrapping context. -/
theorem getTorrent_absent_notexist_no_fetch :
    (∀ (σ : Type) (p : Prims σ) (ns name : String) (s : σ),
      countDownloads (GetTorrent p ns name s).2.2 = 0)
    ∧ (∀ (σ : Type) (p : Prims σ) (ns name : String) (s : σ),
      (p.getTorrentMeta name s).1 = Except.error Err.notExist →
      (GetTorrent p ns name s).1 =
        Except.error (Err.wrapped "get metainfo" Err.notExist)) := by
  constructor
  · intro σ p ns name s
    exact (getTorrent_no_remote p ns name s).1
  · intro σ p ns name s h
    unfold GetTorrent
    simp [h]

/-- Concrete collaborators for the C6 witness: the metainfo slot is absent. -/
def c6Prims : Prims Nat :=
  oraclePrims (Except.error Err.notExist) (Except.error Err.notExist)
    (fun _ => Except.ok ⟨⟨"a", 4⟩⟩) (Except.ok ()) (fun b => Except.ok b)
    (fun mi => Except.ok ⟨mi⟩) (Except.ok ())

/-- Witness for C6 at a concrete absent-slot store. -/
theorem getTorrent_absent_notexist_no_fetch_witness :
    (GetTorrent c6Prims "ns" "blob" 0).1 =
      Except.error (Err.wrapped "get metainfo" Err.notExist) :=
  getTorrent_absent_notexist_no_fetch.2 Nat c6Prims "ns" "blob" 0 rfl

/-- Claim C7: `Stat` fails with the verbatim NotExist error when either
metadata slot is absent, fails with the deserialize-stage decode error when
the metainfo bytes are malformed, succeeds for every piece-status byte
content (the piece-status decoder is total, so no piece-status bytes count
as malformed), and its trace never contains a remote call, an allocation, a
metadata write, or a deletion. -/
theorem stat_notexist_decode_readonly :
    (∀ (σ : Type) (p : Prims σ) (ns name : String) (s : σ),
      (p.getTorrentMeta name s).1 = Except.error Err.notExist →
      (Stat p ns name s).1 = Except.error Err.notExist)
    ∧ (∀ (σ : Type) (p : Prims σ) (ns name : String) (s : σ) (raw : Bytes),
      (p.getTorrentMeta name s).1 = Except.ok raw →
      deserializeMetaInfo raw = none →
      (Stat p ns name s).1 =
        Except.error (Err.wrapped "deserialize metainfo" malformedErr))
    ∧ (∀ (σ : Type) (p : Prims σ) (ns name : String) (s : σ) (raw : Bytes)
        (mi : MetaInfo),
      (p.getTorrentMeta name s).1 = Except.ok raw →
      deserializeMetaInfo raw = some mi →
      (p.getPieceStatus name (p.getTorrentMeta name s).2).1 =
        Except.error Err.notExist →
      (Stat p ns name s).1 = Except.error Err.notExist)
    ∧ (∀ (σ : Type) (p : Prims σ) (ns name : String) (s : σ) (raw praw : Bytes)
        (mi : MetaInfo),
      (p.getTorrentMeta name s).1 = Except.ok raw →
      deserializeMetaInfo raw = some mi →
      (p.getPieceStatus name (p.getTorrentMeta name s).2).1 = Except.ok praw →
      (Stat p ns name s).1 =
        Except.ok ⟨mi, newBitfieldFromPieceStatusBytes name praw⟩)
    ∧ (∀ (σ : Type) (p : Prims σ) (ns name : String) (s : σ),
      countDownloads (Stat p ns name s).2.2 = 0 ∧
      countEnsures (Stat p ns name s).2.2 = 0 ∧
      countGetOrSets (Stat p ns name s).2.2 = 0 ∧
      countDeletes (Stat p ns name s).2.2 = 0) := by
  refine ⟨?_, ?_, ?_, ?_, ?_⟩
  · intro σ p ns name s h
    unfold Stat
    simp [h]
  · intro σ p ns name s raw h hdes
    unfold Stat
    simp [h, hdes]
  · intro σ p ns name s raw mi h hdes hps
    unfold Stat
    simp [h, hdes, hps]
  · intro σ p ns name s raw praw mi h hdes hps
    unfold Stat
    simp [h, hdes, hps]
  · intro σ p ns name s
    unfold Stat
    rcases hg : (p.getTorrentMeta name s).1 with e | raw
    · simp [hg, countDownloads, countEnsures, countGetOrSets, countDeletes]
    · simp only [hg]
      rcases hdes : deserializeMetaInfo raw with _ | mi
      · simp [hdes, countDownloads, countEnsures, countGetOrSets, countDeletes]
      · simp only [hdes]
        rcases hps : (p.getPieceStatus name (p.getTorrentMeta name s).2).1
            with e | praw <;>
          simp [hps, countDownloads, countEnsures, countGetOrSets, countDeletes]

/-- Concrete collaborators for the C7 witness: the metainfo slot holds
malformed bytes. -/
def c7Prims : Prims Nat :=
  oraclePrims (Except.ok []) (Except.ok [0, 1])
    (fun _ => Except.error Err.metainfoNotFound) (Except.ok ())
    (fun b => Except.ok b) (fun mi => Except.ok ⟨mi⟩) (Except.ok ())

/-- Witness for C7: malformed metainfo bytes give the decode error. -/
theorem stat_notexist_decode_readonly_witness :
    (Stat c7Prims "ns" "blob" 0).1 =
      Except.error (Err.wrapped "deserialize metainfo" malformedErr) :=
  stat_notexist_decode_readonly.2.1 Nat c7Prims "ns" "blob" 0 [] rfl rfl

/-- Claim C8: deleting the backing file treats the store's not-exist report
as success, so `DeleteTorrent` on the state-backed store always succeeds —
in particular on an absent name and when called twice in a row — while any
deletion failure other than absence propagates verbatim. -/
theorem deleteTorrent_idempotent :
    (∀ (remote : String → String → Except Err MetaInfo) (name : String)
        (s : StoreState),
      (DeleteTorrent (statePrims remote) name s).1 = Except.ok ())
    ∧ (∀ (remote : String → String → Except Err MetaInfo) (name : String)
        (s : StoreState),
      (DeleteTorrent (statePrims remote) name
        (DeleteTorrent (statePrims remote) name s).2.1).1 = Except.ok ())
    ∧ (∀ (σ : Type) (p : Prims σ) (name : String) (s : σ),
      (p.deleteFile name s).1 = Except.error Err.notExist →
      (DeleteTorrent p name s).1 = Except.ok ())
    ∧ (∀ (σ : Type) (p : Prims σ) (name : String) (s : σ) (e : Err),
      (p.deleteFile name s).1 = Except.error e →
      e.isNotExist = false →
      (DeleteTorrent p name s).1 = Except.error e) := by
  have h1 : ∀ (remote : String → String → Except Err MetaInfo) (name : String)
      (s : StoreState), (DeleteTorrent (statePrims remote) name s).1 = Except.ok () := by
    intro remote name s
    unfold DeleteTorrent
    rcases hf : s.fileLength name with _ | len <;>
      simp [statePrims, hf, Err.isNotExist]
  refine ⟨h1, fun remote name s => h1 remote name _, ?_, ?_⟩
  · intro σ p name s h
    unfold DeleteTorrent
    simp [h, Err.isNotExist]
  · intro σ p name s e h hne
    unfold DeleteTorrent
    simp [h, hne]

/-- Remote source used in witnesses that never reach the remote. -/
def noRemote : String → String → Except Err MetaInfo :=
  fun _ _ => Except.error Err.metainfoNotFound

/-- Concrete collaborators for the C8 witness: the store reports the file
already absent. -/
def c8Prims : Prims Nat :=
  oraclePrims (Except.error Err.notExist) (Except.error Err.notExist)
    (fun _ => Except.error Err.metainfoNotFound) (Except.ok ())
    (fun b => Except.ok b) (fun mi => Except.ok ⟨mi⟩) (Except.error Err.notExist)

/-- Witness for C8: deleting an absent name succeeds, both in the empty
state-backed store and under a store whose delete reports not-exist. -/
theorem deleteTorrent_idempotent_witness :
    (DeleteTorrent (statePrims noRemote) "blob" emptyStore).1 = Except.ok () ∧
    (DeleteTorrent c8Prims "blob" 0).1 = Except.ok () :=
  ⟨deleteTorrent_idempotent.1 noRemote "blob" emptyStore,
   deleteTorrent_idempotent.2.2.1 Nat c8Prims "blob" 0 rfl⟩

/-- Claim C10: whenever the metainfo-slot read does not report absence —
whether it returns bytes or any other error — `CreateTorrent` and
`GetTorrent` agree exactly: same result, same final state, same trace,
including identically wrapped read, parse and initialization errors; in
particular `CreateTorrent` then performs no remote fetch, no file
allocation, and no metadata write. -/
theorem createTorrent_getTorrent_equiv :
    (∀ (σ : Type) (cfg : Config) (p : Prims σ) (ns name : String) (s : σ),
      (∀ e, (p.getTorrentMeta name s).1 = Except.error e → e.isNotExist = false) →
      CreateTorrent cfg p ns name s = GetTorrent p ns name s)
    ∧ (∀ (σ : Type) (cfg : Config) (p : Prims σ) (ns name : String) (s : σ)
        (b : Bytes),
      (p.getTorrentMeta name s).1 = Except.ok b →
      countDownloads (CreateTorrent cfg p ns name s).2.2 = 0 ∧
      countEnsures (CreateTorrent cfg p ns name s).2.2 = 0 ∧
      countGetOrSets (CreateTorrent cfg p ns name s).2.2 = 0) := by
  have h1 : ∀ (σ : Type) (cfg : Config) (p : Prims σ) (ns name : String) (s : σ),
      (∀ e, (p.getTorrentMeta name s).1 = Except.error e → e.isNotExist = false) →
      CreateTorrent cfg p ns name s = GetTorrent p ns name s := by
    intro σ cfg p ns name s h
    unfold CreateTorrent GetTorrent
    rcases hg : (p.getTorrentMeta name s).1 with e | b
    · have hne := h e hg
      simp [hg, hne]
    · simp [hg]
  refine ⟨h1, ?_⟩
  intro σ cfg p ns name s b hg
  have heq := h1 σ cfg p ns name s
    (fun e he => by rw [hg] at he; exact Except.noConfusion he)
  rw [heq]
  exact getTorrent_no_remote p ns name s

/-- Concrete collaborators for the C10 witness: the metainfo slot holds the
serialization of a valid metainfo. -/
def c10Prims : Prims Nat :=
  oraclePrims (Except.ok (serializeMetaInfo ⟨⟨"a", 4⟩⟩)) (Except.ok [1])
    (fun _ => Except.error Err.metainfoNotFound) (Except.ok ())
    (fun b => Except.ok b) (fun mi => Except.ok ⟨mi⟩) (Except.ok ())

/-- Witness for C10: on a present slot the two operations coincide. -/
theorem createTorrent_getTorrent_equiv_witness :
    CreateTorrent ⟨3, 9⟩ c10Prims "ns" "blob" 0 = GetTorrent c10Prims "ns" "blob" 0 :=
  createTorrent_getTorrent_equiv.1 Nat ⟨3, 9⟩ c10Prims "ns" "blob" 0
    (fun _ he => Except.noConfusion he)

end Kraken
